import Mathlib

/-!
Shallow embedding of the localization-management API
(src/api/src/localization_management_api/{models,database,main}.py).

The remote Supabase tables are modelled as an explicit `Store` value:
a list of translation-key rows, a list of translation rows, a counter
standing for store-generated ids, and a logical clock standing for the
store-managed `updated_at` timestamps.  Each database/endpoint function
is translated from the Python source; the function threads the store and
returns `Except`-style results mirroring `HTTPException`.
-/

deriving instance DecidableEq for Except

namespace Loc

/-- Python `str.strip()` whitespace test (space, tab, newline, carriage
return, form feed, vertical tab). -/
def isSpaceChar (c : Char) : Bool :=
  c == ' ' || c == '\t' || c == '\n' || c == '\r' || c == '\x0b' || c == '\x0c'

/-- Drop leading whitespace characters from a character list. -/
def dropLeadSpaces : List Char → List Char
  | [] => []
  | c :: cs => if isSpaceChar c then dropLeadSpaces cs else c :: cs

/-- Python `s.strip()`: remove leading and trailing whitespace. -/
def pyStrip (s : String) : String :=
  ⟨((dropLeadSpaces ((dropLeadSpaces s.toList).reverse)).reverse)⟩

/-- ASCII lower-casing of one character (as done by the store for ILIKE). -/
def lowerChar (c : Char) : Char :=
  if 'A' ≤ c && c ≤ 'Z' then Char.ofNat (c.toNat + 32) else c

/-- Lower-case a whole string. -/
def lowerStr (s : String) : String := ⟨s.toList.map lowerChar⟩

/-- Does `n` occur at the head of `h`? -/
def leadMatch : List Char → List Char → Bool
  | [], _ => true
  | _ :: _, [] => false
  | a :: as, b :: bs => a == b && leadMatch as bs

/-- Does `n` occur contiguously anywhere inside `h`? -/
def hasSub (n : List Char) : List Char → Bool
  | [] => n.isEmpty
  | b :: bs => leadMatch n (b :: bs) || hasSub n bs

/-- `hay ILIKE %term%`: case-insensitive substring containment, the filter
the store applies for `database.py` line 196. -/
def ilikeContains (term hay : String) : Bool :=
  hasSub (lowerStr term).toList (lowerStr hay).toList

/-- Python truthiness test for an optional string: `None` and `""` are
falsy (`main.py` line 158 checks `not row.get(...)` before stripping). -/
def pyFalsy : Option String → Bool
  | none => true
  | some s => s == ""

/-- A stored `translation_keys` row (models.py `TranslationKey`, without
the derived `translations` mapping, which is assembled at read time). -/
structure TranslationKeyRec where
  id : Nat
  key : String
  category : String
  description : Option String
deriving Repr, DecidableEq

/-- A stored `translations` row (models.py `Translation`). -/
structure TranslationRec where
  id : Nat
  translation_key_id : Nat
  language_code : String
  value : String
  updated_by : String
  updated_at : Nat
deriving Repr, DecidableEq

/-- The remote store: both tables plus the id generator and the logical
clock producing `updated_at` stamps. -/
structure Store where
  keys : List TranslationKeyRec
  translations : List TranslationRec
  nextId : Nat
  time : Nat
deriving Repr, DecidableEq

def emptyStore : Store := ⟨[], [], 0, 0⟩

/-- models.py `TranslationKeyCreate`. -/
structure TranslationKeyCreate where
  key : String
  category : String
  description : Option String
deriving Repr, DecidableEq

/-- models.py `TranslationKeyUpdate`: every field optional. -/
structure TranslationKeyUpdate where
  key : Option String
  category : Option String
  description : Option String
deriving Repr, DecidableEq

/-- models.py `TranslationCreate`. -/
structure TranslationCreate where
  language_code : String
  value : String
  updated_by : String
deriving Repr, DecidableEq

/-- models.py `BulkTranslationUpdate`. -/
structure BulkTranslationUpdate where
  translation_key_id : Nat
  language_code : String
  value : String
  updated_by : String
deriving Repr, DecidableEq

/-- An `HTTPException` as raised by main.py: status code and detail. -/
structure HTTPError where
  status : Nat
  detail : String
deriving Repr, DecidableEq

/-- database.py `get_translation_key` (select by `id`). -/
def get_translation_keyById (s : Store) (kid : Nat) : Option TranslationKeyRec :=
  s.keys.find? (fun r => r.id == kid)

/-- database.py `get_translation_key_by_key` (select by `key`). -/
def get_translation_key_by_key (s : Store) (k : String) : Option TranslationKeyRec :=
  s.keys.find? (fun r => r.key == k)

/-- database.py `create_translation_key`: insert; the store assigns the id. -/
def create_translation_key (s : Store) (c : TranslationKeyCreate) :
    Store × TranslationKeyRec :=
  let r : TranslationKeyRec := ⟨s.nextId, c.key, c.category, c.description⟩
  ({ s with keys := s.keys ++ [r], nextId := s.nextId + 1 }, r)

/-- database.py `update_translation_key` line 88: fields that are `None`
in the patch are dropped, so only non-null fields overwrite columns. -/
def applyUpdate (t : TranslationKeyRec) (u : TranslationKeyUpdate) :
    TranslationKeyRec :=
  { t with
    key := u.key.getD t.key,
    category := u.category.getD t.category,
    description := u.description.or t.description }

/-- database.py `update_translation_key`: update the row matching `id`
with the non-null fields of the patch; `none` when no row matches. -/
def update_translation_key (s : Store) (kid : Nat) (u : TranslationKeyUpdate) :
    Store × Option TranslationKeyRec :=
  match s.keys.find? (fun r => r.id == kid) with
  | none => (s, none)
  | some r =>
    let r2 := applyUpdate r u
    ({ s with keys := s.keys.map (fun x => if x.id == kid then applyUpdate x u else x) },
     some r2)

/-- database.py `get_translation`: select by the composite pair. -/
def get_translation (s : Store) (kid : Nat) (lc : String) : Option TranslationRec :=
  s.translations.find? (fun t => t.translation_key_id == kid && t.language_code == lc)

/-- One store-level upsert keyed on `(translation_key_id, language_code)`
(the `on_conflict` columns passed in database.py lines 146 and 169): an
existing row for the pair gets its `value`/`updated_by`/`updated_at`
overwritten in place; otherwise a fresh row is inserted. -/
def upsertTranslationRow (s : Store) (kid : Nat) (lc v ub : String) : Store :=
  if s.translations.any (fun t => t.translation_key_id == kid && t.language_code == lc) then
    { s with
      translations := s.translations.map (fun t =>
        if t.translation_key_id == kid && t.language_code == lc then
          { t with value := v, updated_by := ub, updated_at := s.time }
        else t),
      time := s.time + 1 }
  else
    { s with
      translations := s.translations ++ [⟨s.nextId, kid, lc, v, ub, s.time⟩],
      nextId := s.nextId + 1,
      time := s.time + 1 }

/-- database.py `upsert_translation`: the path parameters override the
body's `language_code` (lines 142-143). -/
def upsert_translation (s : Store) (kid : Nat) (lc : String)
    (td : TranslationCreate) : Store :=
  upsertTranslationRow s kid lc td.value td.updated_by

/-- database.py `bulk_update_translations`: the batch rows are applied to
the translations table keyed on the composite pair, in order. -/
def bulk_update_translations (s : Store) (us : List BulkTranslationUpdate) : Store :=
  us.foldl (fun st u =>
    upsertTranslationRow st u.translation_key_id u.language_code u.value u.updated_by) s

/-- database.py `search_translation_keys`: pattern filter
`key.ilike.%term%,description.ilike.%term%` OR-combined; a null
description matches nothing (SQL null semantics). -/
def search_translation_keys (s : Store) (term : String) : List TranslationKeyRec :=
  s.keys.filter (fun r =>
    ilikeContains term r.key ||
      (match r.description with
       | some d => ilikeContains term d
       | none => false))

/-! ## API layer (main.py endpoints) -/

/-- main.py `bulk_update_translations` endpoint (lines 100-137): reject an
empty batch, then check every referenced key id exists before the single
upsert call; on failure the store is untouched.  (The Python code iterates
a `set` of the ids, whose order is unspecified; here the ids are scanned
in batch order, which names the same error whenever only one id is
missing.)  The success payload is the updated count. -/
def bulk_update_endpoint (s : Store) (updates : List BulkTranslationUpdate) :
    Store × Except HTTPError Nat :=
  if updates.isEmpty then
    (s, .error ⟨400, "No updates provided"⟩)
  else
    match (updates.map (fun u => u.translation_key_id)).find?
        (fun kid => (get_translation_keyById s kid).isNone) with
    | some kid =>
      (s, .error ⟨404, s!"Translation key with ID {kid} not found"⟩)
    | none => (bulk_update_translations s updates, .ok updates.length)

/-- main.py `create_translation_key` endpoint (lines 251-265): conflict
check by key string before the insert. -/
def create_translation_key_endpoint (s : Store) (c : TranslationKeyCreate) :
    Store × Except HTTPError TranslationKeyRec :=
  match get_translation_key_by_key s c.key with
  | some _ => (s, .error ⟨400, "Translation key already exists"⟩)
  | none =>
    let p := create_translation_key s c
    (p.1, .ok p.2)

/-- main.py `upsert_translation` endpoint, PUT (lines 338-352): key must
exist; the translation for the pair is overwritten unconditionally. -/
def upsert_translation_endpoint (s : Store) (kid : Nat) (lc : String)
    (td : TranslationCreate) : Store × Except HTTPError Unit :=
  match get_translation_keyById s kid with
  | none => (s, .error ⟨404, "Translation key not found"⟩)
  | some _ => (upsert_translation s kid lc td, .ok ())

/-- main.py `create_translation` endpoint, POST (lines 355-374): key must
exist and the pair must not already hold a translation. -/
def create_translation_endpoint (s : Store) (kid : Nat) (lc : String)
    (td : TranslationCreate) : Store × Except HTTPError Unit :=
  match get_translation_keyById s kid with
  | none => (s, .error ⟨404, "Translation key not found"⟩)
  | some _ =>
    match get_translation s kid lc with
    | some _ => (s, .error ⟨400, "Translation already exists for this language"⟩)
    | none => (upsert_translation s kid lc td, .ok ())

/-! ## CSV bulk import (main.py `bulk_import_from_csv`, lines 140-233)

A parsed CSV data row as produced by `csv.DictReader` over the header
`key,category,description,en,es,pt`: a column missing from the header (or
left without a cell) reads back as `None`, hence optional fields. -/

structure CSVRow where
  key : Option String
  category : Option String
  description : Option String
  en : Option String
  es : Option String
  pt : Option String
deriving Repr, DecidableEq

/-- main.py line 158: a row is rejected when `key` or `category` is
missing or the empty string.  The check uses Python truthiness BEFORE
stripping, so a whitespace-only cell passes it. -/
def rowInvalid (r : CSVRow) : Bool :=
  pyFalsy r.key || pyFalsy r.category

/-- The detail string of the abort for an invalid row: the inner
`HTTPException` (status 400) is caught by the row-level handler and
re-wrapped as `Error processing row N: ...` (main.py lines 205-209); the
Python quote characters around the field names are omitted here. -/
def requiredFieldsDetail (n : Nat) : String :=
  s!"Error processing row {n}: 400: Row {n}: key and category are required fields"

/-- main.py line 166: a blank (or absent) description cell normalizes to
null, never to the empty string. -/
def normDesc (r : CSVRow) : Option String :=
  let d := pyStrip (r.description.getD "")
  if d == "" then none else some d

/-- main.py lines 192-203: stage one `BulkTranslationUpdate` per language
column (`en`, `es`, `pt` in order) whose cell is non-blank after
stripping. -/
def cellUpdates (kid : Nat) (ub : String) (r : CSVRow) :
    List BulkTranslationUpdate :=
  [("en", r.en), ("es", r.es), ("pt", r.pt)].filterMap (fun p =>
    let v := pyStrip (p.2.getD "")
    if v == "" then none else some ⟨kid, p.1, v, ub⟩)

/-- Number of non-blank language cells of one row. -/
def cellCount (r : CSVRow) : Nat :=
  (if pyStrip (r.en.getD "") == "" then 0 else 1) +
  (if pyStrip (r.es.getD "") == "" then 0 else 1) +
  (if pyStrip (r.pt.getD "") == "" then 0 else 1)

/-- Import state after some rows: the store plus the two counters and the
staged translation updates (main.py lines 151-153). -/
structure ImportAcc where
  store : Store
  created_keys : Nat
  updated_keys : Nat
  staged : List BulkTranslationUpdate
deriving Repr, DecidableEq

/-- The `data` object of a successful import response (lines 222-227). -/
structure ImportResult where
  created_keys : Nat
  updated_keys : Nat
  translations_updated : Nat
  total_rows_processed : Nat
deriving Repr, DecidableEq

/-- One iteration of the row loop (main.py lines 155-209): validate,
normalize, create-or-update the key, stage the language cells. -/
def processRow (ub : String) (acc : ImportAcc) (n : Nat) (r : CSVRow) :
    Except HTTPError ImportAcc :=
  if rowInvalid r then
    .error ⟨400, requiredFieldsDetail n⟩
  else
    let key := pyStrip (r.key.getD "")
    let category := pyStrip (r.category.getD "")
    let description := normDesc r
    match get_translation_key_by_key acc.store key with
    | none =>
      let p := create_translation_key acc.store ⟨key, category, description⟩
      .ok ⟨p.1, acc.created_keys + 1, acc.updated_keys,
           acc.staged ++ cellUpdates p.2.id ub r⟩
    | some ek =>
      if ek.category != category || ek.description != description then
        .ok ⟨(update_translation_key acc.store ek.id
                ⟨none, some category, description⟩).1,
             acc.created_keys, acc.updated_keys + 1,
             acc.staged ++ cellUpdates ek.id ub r⟩
      else
        .ok ⟨acc.store, acc.created_keys, acc.updated_keys,
             acc.staged ++ cellUpdates ek.id ub r⟩

/-- The row loop: `n` is the 1-indexed CSV row number of the first row of
the list (the caller starts it at 2, the header being row 1).  On a row
error the loop stops; the accumulator of the already-processed prefix is
kept (its store writes are already committed). -/
def importRows (ub : String) (acc : ImportAcc) (n : Nat) :
    List CSVRow → ImportAcc × Except HTTPError Unit
  | [] => (acc, .ok ())
  | r :: rs =>
    match processRow ub acc n r with
    | .error e => (acc, .error e)
    | .ok acc1 => importRows ub acc1 (n + 1) rs

/-- main.py `bulk_import_from_csv` over parsed rows: run the row loop
from row number 2; only when every row succeeded issue the single bulk
upsert of the staged updates (lines 211-214) and report the counts. -/
def bulk_import_from_csv (s : Store) (rows : List CSVRow) (ub : String) :
    Store × Except HTTPError ImportResult :=
  let p := importRows ub ⟨s, 0, 0, []⟩ 2 rows
  match p.2 with
  | .error e => (p.1.store, .error e)
  | .ok _ =>
    let s2 := if p.1.staged.isEmpty then p.1.store
              else bulk_update_translations p.1.store p.1.staged
    (s2, .ok ⟨p.1.created_keys, p.1.updated_keys, p.1.staged.length,
              p.1.created_keys + p.1.updated_keys⟩)

/-! ## Generic list lemmas -/

/-- `find?` over a map commutes when the map preserves the predicate. -/
theorem find?_map_pres {α : Type} (f : α → α) (p : α → Bool)
    (hp : ∀ x, p (f x) = p x) :
    ∀ l : List α, (l.map f).find? p = (l.find? p).map f := by
  intro l
  induction l with
  | nil => rfl
  | cons a t ih =>
    simp only [List.map_cons, List.find?]
    rw [hp a]
    cases p a <;> simp [ih]

/-- `filter` length over a map is unchanged when the map preserves the
predicate. -/
theorem length_filter_map_pres {α : Type} (f : α → α) (p : α → Bool)
    (hp : ∀ x, p (f x) = p x) :
    ∀ l : List α, ((l.map f).filter p).length = (l.filter p).length := by
  intro l
  induction l with
  | nil => rfl
  | cons a t ih =>
    simp only [List.map_cons, List.filter]
    rw [hp a]
    cases p a <;> simp [ih]

/-- If `find?` fails on the first list, searching the concatenation
searches the second. -/
theorem find?_append_of_none {α : Type} (p : α → Bool) :
    ∀ l1 l2 : List α, l1.find? p = none → (l1 ++ l2).find? p = l2.find? p := by
  intro l1 l2 h
  induction l1 with
  | nil => rfl
  | cons a t ih =>
    simp only [List.find?] at h ⊢
    cases ha : p a with
    | true => rw [ha] at h; exact absurd h (by simp)
    | false => rw [ha] at h; simp only [List.cons_append, List.find?, ha]; exact ih h

/-! ## The composite-key upsert invariant (translations table) -/

/-- Number of stored translation rows for one
`(translation_key_id, language_code)` pair. -/
def pairCount (s : Store) (kid : Nat) (lc : String) : Nat :=
  (s.translations.filter
    (fun t => t.translation_key_id == kid && t.language_code == lc)).length

/-- Invariant: the pair is an effective composite key. -/
def AtMostOnePerPair (s : Store) : Prop :=
  ∀ kid lc, pairCount s kid lc ≤ 1

theorem upsertRow_pred_pres (kid : Nat) (lc : String) (v ub : String) (ua : Nat)
    (k2 : Nat) (l2 : String) (t : TranslationRec) :
    ((if t.translation_key_id == kid && t.language_code == lc then
        { t with value := v, updated_by := ub, updated_at := ua }
      else t).translation_key_id == k2 &&
     (if t.translation_key_id == kid && t.language_code == lc then
        { t with value := v, updated_by := ub, updated_at := ua }
      else t).language_code == l2) =
      (t.translation_key_id == k2 && t.language_code == l2) := by
  by_cases h : (t.translation_key_id == kid && t.language_code == lc) = true <;>
    simp [h]

/-- In the overwrite branch, every pair keeps its row count. -/
theorem pairCount_upsertRow_hit (s : Store) (kid : Nat) (lc v ub : String)
    (hany : s.translations.any
      (fun t => t.translation_key_id == kid && t.language_code == lc) = true)
    (k2 : Nat) (l2 : String) :
    pairCount (upsertTranslationRow s kid lc v ub) k2 l2 = pairCount s k2 l2 := by
  unfold upsertTranslationRow
  rw [if_pos hany]
  unfold pairCount
  exact length_filter_map_pres _ _
    (fun t => upsertRow_pred_pres kid lc v ub s.time k2 l2 t) s.translations

/-- In the insert branch, only the written pair gains (exactly) one row. -/
theorem pairCount_upsertRow_miss (s : Store) (kid : Nat) (lc v ub : String)
    (hany : s.translations.any
      (fun t => t.translation_key_id == kid && t.language_code == lc) = false)
    (k2 : Nat) (l2 : String) :
    pairCount (upsertTranslationRow s kid lc v ub) k2 l2 =
      pairCount s k2 l2 + (if kid == k2 && lc == l2 then 1 else 0) := by
  unfold upsertTranslationRow
  rw [if_neg (by simp [hany])]
  unfold pairCount
  simp only [List.filter_append, List.length_append]
  congr 1
  cases h : (kid == k2 && lc == l2) <;> simp [List.filter, h]

/-- A pair absent from the table (`any` false) has row count zero. -/
theorem pairCount_eq_zero_of_any_false (s : Store) (kid : Nat) (lc : String)
    (hany : s.translations.any
      (fun t => t.translation_key_id == kid && t.language_code == lc) = false) :
    pairCount s kid lc = 0 := by
  unfold pairCount
  simp only [List.length_eq_zero]
  rw [List.filter_eq_nil_iff]
  intro t ht
  have := (List.any_eq_false).1 hany t ht
  simpa using this

/-- A pair present in the table (`any` true) has positive row count. -/
theorem pairCount_pos_of_any_true (s : Store) (kid : Nat) (lc : String)
    (hany : s.translations.any
      (fun t => t.translation_key_id == kid && t.language_code == lc) = true) :
    0 < pairCount s kid lc := by
  obtain ⟨t, ht, hpt⟩ := List.any_eq_true.1 hany
  unfold pairCount
  have : t ∈ s.translations.filter
      (fun t => t.translation_key_id == kid && t.language_code == lc) :=
    List.mem_filter.2 ⟨ht, hpt⟩
  exact List.length_pos.2 (fun hnil => by simp [hnil] at this)

/-- One store upsert preserves the composite-key invariant. -/
theorem upsertRow_pres_amo (s : Store) (kid : Nat) (lc v ub : String)
    (h : AtMostOnePerPair s) :
    AtMostOnePerPair (upsertTranslationRow s kid lc v ub) := by
  intro k2 l2
  cases hany : s.translations.any
      (fun t => t.translation_key_id == kid && t.language_code == lc) with
  | true => rw [pairCount_upsertRow_hit s kid lc v ub hany]; exact h k2 l2
  | false =>
    rw [pairCount_upsertRow_miss s kid lc v ub hany]
    by_cases hp : (kid == k2 && lc == l2) = true
    · have hk2 : kid = k2 := by simp at hp; exact hp.1
      have hl2 : lc = l2 := by simp at hp; exact hp.2
      rw [← hk2, ← hl2, pairCount_eq_zero_of_any_false s kid lc hany]
      simp
    · simp only [hp, if_false]
      simpa using h k2 l2

/-- The bulk upsert preserves the composite-key invariant. -/
theorem bulk_pres_amo (us : List BulkTranslationUpdate) :
    ∀ s : Store, AtMostOnePerPair s →
      AtMostOnePerPair (bulk_update_translations s us) := by
  induction us with
  | nil => intro s h; exact h
  | cons u t ih =>
    intro s h
    have h1 := upsertRow_pres_amo s u.translation_key_id u.language_code
      u.value u.updated_by h
    simpa [bulk_update_translations, List.foldl] using
      ih _ h1

theorem find?_isSome_eq_any {α : Type} (p : α → Bool) :
    ∀ l : List α, (l.find? p).isSome = l.any p := by
  intro l
  induction l with
  | nil => rfl
  | cons a t ih =>
    simp only [List.find?, List.any]
    cases p a <;> simp [ih]

/-- Writing to a pair that is present overwrites its row in place. -/
theorem get_translation_upsertRow_hit (s : Store) (kid : Nat) (lc v ub : String)
    (t0 : TranslationRec) (h : get_translation s kid lc = some t0) :
    get_translation (upsertTranslationRow s kid lc v ub) kid lc =
      some { t0 with value := v, updated_by := ub, updated_at := s.time } := by
  unfold get_translation at h
  have hmem := List.mem_of_find?_eq_some h
  have hpt : (t0.translation_key_id == kid && t0.language_code == lc) = true := by
    have := List.find?_some h
    simpa using this
  have hany : s.translations.any
      (fun t => t.translation_key_id == kid && t.language_code == lc) = true :=
    List.any_eq_true.2 ⟨t0, hmem, hpt⟩
  unfold upsertTranslationRow
  rw [if_pos hany]
  unfold get_translation
  simp only
  rw [find?_map_pres _ _
    (fun t => upsertRow_pred_pres kid lc v ub s.time kid lc t), h]
  simp only [Bool.and_eq_true, beq_iff_eq] at hpt
  simp [hpt]

/-- Writing to a pair that is absent inserts a fresh row for it. -/
theorem get_translation_upsertRow_miss (s : Store) (kid : Nat) (lc v ub : String)
    (h : get_translation s kid lc = none) :
    get_translation (upsertTranslationRow s kid lc v ub) kid lc =
      some ⟨s.nextId, kid, lc, v, ub, s.time⟩ := by
  have hany : s.translations.any
      (fun t => t.translation_key_id == kid && t.language_code == lc) = false := by
    rw [← find?_isSome_eq_any]
    unfold get_translation at h
    rw [h]
    rfl
  unfold upsertTranslationRow
  rw [if_neg (by simp [hany])]
  unfold get_translation at h ⊢
  simp only
  rw [find?_append_of_none _ _ _ h]
  simp [List.find?]

/-- The time stamp advances by one on every store upsert. -/
theorem upsertRow_time (s : Store) (kid : Nat) (lc v ub : String) :
    (upsertTranslationRow s kid lc v ub).time = s.time + 1 := by
  unfold upsertTranslationRow
  split <;> rfl

/-- The pair written by an upsert has exactly one row afterwards (given
the invariant held before). -/
theorem pairCount_upsertRow_self (s : Store) (kid : Nat) (lc v ub : String)
    (h : AtMostOnePerPair s) :
    pairCount (upsertTranslationRow s kid lc v ub) kid lc = 1 := by
  cases hany : s.translations.any
      (fun t => t.translation_key_id == kid && t.language_code == lc) with
  | true =>
    rw [pairCount_upsertRow_hit s kid lc v ub hany]
    have := pairCount_pos_of_any_true s kid lc hany
    have := h kid lc
    omega
  | false =>
    rw [pairCount_upsertRow_miss s kid lc v ub hany,
      pairCount_eq_zero_of_any_false s kid lc hany]
    simp

/-- C7: for every sequence of upserts the store keeps at most one
Translation per `(translation_key_id, language_code)` pair; upserting the
same pair twice leaves exactly one row for it carrying the second write's
`value`/`updated_by`/`updated_at`; and a write to an absent pair inserts
a fresh row. -/
theorem c7_translation_composite_upsert (s : Store) (h : AtMostOnePerPair s)
    (us : List BulkTranslationUpdate) (kid : Nat) (lc : String)
    (td1 td2 : TranslationCreate) :
    AtMostOnePerPair (bulk_update_translations s us) ∧
    (pairCount (upsert_translation (upsert_translation s kid lc td1) kid lc td2)
        kid lc = 1 ∧
     ∃ t, get_translation
         (upsert_translation (upsert_translation s kid lc td1) kid lc td2)
         kid lc = some t ∧
       t.value = td2.value ∧ t.updated_by = td2.updated_by ∧
       t.updated_at = s.time + 1) ∧
    (get_translation s kid lc = none →
      get_translation (upsert_translation s kid lc td1) kid lc =
        some ⟨s.nextId, kid, lc, td1.value, td1.updated_by, s.time⟩) := by
  refine ⟨bulk_pres_amo us s h, ?_, ?_⟩
  · simp only [upsert_translation]
    have h1 : AtMostOnePerPair
        (upsertTranslationRow s kid lc td1.value td1.updated_by) :=
      upsertRow_pres_amo s kid lc td1.value td1.updated_by h
    have hs1 : ∃ t1, get_translation
        (upsertTranslationRow s kid lc td1.value td1.updated_by) kid lc =
          some t1 := by
      cases hg : get_translation s kid lc with
      | some t0 =>
        exact ⟨_, get_translation_upsertRow_hit s kid lc td1.value
          td1.updated_by t0 hg⟩
      | none =>
        exact ⟨_, get_translation_upsertRow_miss s kid lc td1.value
          td1.updated_by hg⟩
    obtain ⟨t1, ht1⟩ := hs1
    refine ⟨pairCount_upsertRow_self _ kid lc td2.value td2.updated_by h1,
      _, get_translation_upsertRow_hit _ kid lc td2.value td2.updated_by t1 ht1,
      rfl, rfl, ?_⟩
    simpa using upsertRow_time s kid lc td1.value td1.updated_by
  · intro hg
    simp only [upsert_translation]
    exact get_translation_upsertRow_miss s kid lc td1.value td1.updated_by hg

/-- Witness for C7 at a concrete store and concrete writes. -/
theorem c7_translation_composite_upsert_witness :
    AtMostOnePerPair (bulk_update_translations emptyStore []) ∧
    (pairCount (upsert_translation
        (upsert_translation emptyStore 0 "en" ⟨"en", "v1", "u1"⟩)
        0 "en" ⟨"en", "v2", "u2"⟩) 0 "en" = 1 ∧
     ∃ t, get_translation (upsert_translation
         (upsert_translation emptyStore 0 "en" ⟨"en", "v1", "u1"⟩)
         0 "en" ⟨"en", "v2", "u2"⟩) 0 "en" = some t ∧
       t.value = "v2" ∧ t.updated_by = "u2" ∧ t.updated_at = emptyStore.time + 1) ∧
    (get_translation emptyStore 0 "en" = none →
      get_translation (upsert_translation emptyStore 0 "en" ⟨"en", "v1", "u1"⟩)
          0 "en" =
        some ⟨emptyStore.nextId, 0, "en", "v1", "u1", emptyStore.time⟩) :=
  c7_translation_composite_upsert emptyStore
    (fun kid lc => by simp [pairCount, emptyStore]) [] 0 "en"
    ⟨"en", "v1", "u1"⟩ ⟨"en", "v2", "u2"⟩

/-! ## Search (C8) -/

theorem leadMatch_iff (n : List Char) :
    ∀ h : List Char, leadMatch n h = true ↔ ∃ q, h = n ++ q := by
  induction n with
  | nil => intro h; simp [leadMatch]
  | cons a as ih =>
    intro h
    cases h with
    | nil => simp [leadMatch]
    | cons b bs =>
      simp only [leadMatch, Bool.and_eq_true, beq_iff_eq, List.cons_append,
        List.cons.injEq, ih bs]
      constructor
      · rintro ⟨hab, q, hq⟩; exact ⟨q, hab.symm, hq⟩
      · rintro ⟨q, hab, hq⟩; exact ⟨hab.symm, q, hq⟩

theorem hasSub_iff (n : List Char) :
    ∀ h : List Char, hasSub n h = true ↔ ∃ p q, h = p ++ n ++ q := by
  intro h
  induction h with
  | nil =>
    simp only [hasSub, List.isEmpty_iff]
    constructor
    · rintro rfl; exact ⟨[], [], rfl⟩
    · rintro ⟨p, q, hpq⟩
      cases p with
      | cons c cs => simp at hpq
      | nil =>
        cases n with
        | nil => rfl
        | cons c cs => simp at hpq
  | cons b bs ih =>
    simp only [hasSub, Bool.or_eq_true, leadMatch_iff, ih]
    constructor
    · rintro (⟨q, hq⟩ | ⟨p, q, hpq⟩)
      · exact ⟨[], q, by simpa using hq⟩
      · exact ⟨b :: p, q, by simp [hpq]⟩
    · rintro ⟨p, q, hpq⟩
      cases p with
      | nil => exact Or.inl ⟨q, by simpa using hpq⟩
      | cons c cs =>
        simp only [List.cons_append, List.cons.injEq] at hpq
        exact Or.inr ⟨cs, q, hpq.2⟩

/-- Case-insensitive substring containment, stated structurally (the
property the ILIKE pattern filter is meant to decide). -/
def ciSubstring (term hay : String) : Prop :=
  ∃ p q, (lowerStr hay).toList = p ++ (lowerStr term).toList ++ q

theorem ilikeContains_iff (term hay : String) :
    ilikeContains term hay = true ↔ ciSubstring term hay := by
  unfold ilikeContains ciSubstring
  exact hasSub_iff _ _

/-- The row match condition applied by `search_translation_keys`. -/
def searchMatches (term : String) (r : TranslationKeyRec) : Prop :=
  ciSubstring term r.key ∨ ∃ d, r.description = some d ∧ ciSubstring term d

/-- The concrete store of the spec's search example. -/
def greetKey : TranslationKeyRec :=
  ⟨0, "common.greeting", "buttons", some "farewell note"⟩

def greetStore : Store := ⟨[greetKey], [], 1, 0⟩

/-- C8: `search_translation_keys` returns exactly the stored keys whose
`key` or `description` contains the term as a case-insensitive substring
(OR-combined), an empty list — not an error — when nothing matches, and
in particular returns "common.greeting" for the term "greeting" (and,
case-insensitively, "GREETING") on key-name match alone, its description
not matching. -/
theorem c8_search_keys (s : Store) (term : String) :
    (∀ r, r ∈ search_translation_keys s term ↔ r ∈ s.keys ∧ searchMatches term r) ∧
    ((∀ r ∈ s.keys, ¬ searchMatches term r) → search_translation_keys s term = []) ∧
    search_translation_keys greetStore "greeting" = [greetKey] ∧
    search_translation_keys greetStore "GREETING" = [greetKey] := by
  have hchar : ∀ r, r ∈ search_translation_keys s term ↔
      r ∈ s.keys ∧ searchMatches term r := by
    intro r
    unfold search_translation_keys
    rw [List.mem_filter]
    refine and_congr_right (fun _ => ?_)
    cases hd : r.description with
    | none =>
      simp [searchMatches, hd, ilikeContains_iff]
    | some d =>
      simp [searchMatches, hd, ilikeContains_iff]
  refine ⟨hchar, ?_, by decide, by decide⟩
  intro hnone
  rw [List.eq_nil_iff_forall_not_mem]
  intro r hr
  obtain ⟨hmem, hmatch⟩ := (hchar r).1 hr
  exact hnone r hmem hmatch

/-- Witness for C8: a term matching nothing in the concrete store yields
the empty list. -/
theorem c8_search_keys_witness :
    search_translation_keys greetStore "zzz" = [] :=
  (c8_search_keys greetStore "zzz").2.1 (by
    intro r hr
    have hr2 : r = greetKey := by
      simpa [greetStore] using hr
    subst hr2
    rintro (hk | ⟨d, hd, hdc⟩)
    · exact absurd ((ilikeContains_iff "zzz" greetKey.key).2 hk) (by decide)
    · have hd2 : d = "farewell note" := by
        have : some "farewell note" = some d := hd
        exact (Option.some.injEq _ _ ▸ this).symm
      subst hd2
      exact absurd ((ilikeContains_iff "zzz" "farewell note").2 hdc) (by decide))

/-! ## Endpoint claims (C5, C6, C9, C10) -/

/-- A store holding one key (id 0) with a stored description. -/
def store0 : Store := ⟨[⟨0, "a", "ui", some "old"⟩], [], 1, 0⟩

/-- A store holding one key (id 0) and one translation for (0, "en"). -/
def wstore : Store := ⟨[⟨0, "a", "ui", none⟩], [⟨1, 0, "en", "Hi", "u", 0⟩], 2, 1⟩

/-- C10: a bulk update whose updates list is empty is rejected with a
Validation error and the store is unchanged. -/
theorem c10_bulk_update_empty_rejected (s : Store) :
    bulk_update_endpoint s [] = (s, .error ⟨400, "No updates provided"⟩) := rfl

/-- C5: a bulk update in which some command references a nonexistent
`translation_key_id` fails with a 404 naming a referenced missing id,
and the store — in particular the translations table — is unchanged. -/
theorem c5_bulk_update_missing_key (s : Store)
    (updates : List BulkTranslationUpdate) (u0 : BulkTranslationUpdate)
    (h0 : u0 ∈ updates)
    (hmiss : get_translation_keyById s u0.translation_key_id = none) :
    (bulk_update_endpoint s updates).1 = s ∧
    ∃ kid, (∃ u ∈ updates, u.translation_key_id = kid) ∧
      get_translation_keyById s kid = none ∧
      (bulk_update_endpoint s updates).2 =
        .error ⟨404, s!"Translation key with ID {kid} not found"⟩ := by
  have hne : updates.isEmpty = false := by
    cases updates with
    | nil => cases h0
    | cons a t => rfl
  have hany : (updates.map (fun u => u.translation_key_id)).any
      (fun kid => (get_translation_keyById s kid).isNone) = true :=
    List.any_eq_true.2 ⟨u0.translation_key_id,
      List.mem_map_of_mem _ h0, by simp [hmiss]⟩
  have hsome : ((updates.map (fun u => u.translation_key_id)).find?
      (fun kid => (get_translation_keyById s kid).isNone)).isSome = true := by
    rw [find?_isSome_eq_any]; exact hany
  obtain ⟨kid, hkid⟩ := Option.isSome_iff_exists.1 hsome
  have hmem : kid ∈ updates.map (fun u => u.translation_key_id) :=
    List.mem_of_find?_eq_some hkid
  have hkidnone : get_translation_keyById s kid = none := by
    have := List.find?_some hkid
    exact Option.isNone_iff_eq_none.1 (by simpa using this)
  obtain ⟨u, hu, hueq⟩ := List.mem_map.1 hmem
  simp only [bulk_update_endpoint, hne, hkid]
  exact ⟨rfl, kid, ⟨u, hu, hueq⟩, hkidnone, rfl⟩

/-- Witness for C5. -/
theorem c5_bulk_update_missing_key_witness :
    (bulk_update_endpoint emptyStore [⟨5, "en", "v", "u"⟩]).1 = emptyStore ∧
    ∃ kid, (∃ u ∈ [(⟨5, "en", "v", "u"⟩ : BulkTranslationUpdate)],
        u.translation_key_id = kid) ∧
      get_translation_keyById emptyStore kid = none ∧
      (bulk_update_endpoint emptyStore [⟨5, "en", "v", "u"⟩]).2 =
        .error ⟨404, s!"Translation key with ID {kid} not found"⟩ :=
  c5_bulk_update_missing_key emptyStore [⟨5, "en", "v", "u"⟩]
    ⟨5, "en", "v", "u"⟩ (by decide) (by decide)

/-- C6: creating a translation key whose key string already exists fails
with a Conflict error and the store — hence the existing record and its
translations — is wholly unchanged. -/
theorem c6_create_duplicate_conflict (s : Store) (c : TranslationKeyCreate)
    (ek : TranslationKeyRec) (h : get_translation_key_by_key s c.key = some ek) :
    create_translation_key_endpoint s c =
      (s, .error ⟨400, "Translation key already exists"⟩) := by
  unfold create_translation_key_endpoint
  rw [h]

/-- Witness for C6. -/
theorem c6_create_duplicate_conflict_witness :
    create_translation_key_endpoint store0 ⟨"a", "x", none⟩ =
      (store0, .error ⟨400, "Translation key already exists"⟩) :=
  c6_create_duplicate_conflict store0 ⟨"a", "x", none⟩
    ⟨0, "a", "ui", some "old"⟩ (by decide)

/-- C9: POST on a (key, locale) pair that already holds a translation
fails with "Translation already exists" and leaves the store (hence the
stored value) unchanged; on an absent pair it inserts the translation;
the PUT upsert endpoint instead overwrites an existing pair
unconditionally. -/
theorem c9_post_translation_create (s : Store) (kid : Nat) (lc : String)
    (td : TranslationCreate) (k : TranslationKeyRec)
    (hk : get_translation_keyById s kid = some k) :
    (∀ t, get_translation s kid lc = some t →
      create_translation_endpoint s kid lc td =
        (s, .error ⟨400, "Translation already exists for this language"⟩)) ∧
    (get_translation s kid lc = none →
      (create_translation_endpoint s kid lc td).2 = .ok () ∧
      get_translation (create_translation_endpoint s kid lc td).1 kid lc =
        some ⟨s.nextId, kid, lc, td.value, td.updated_by, s.time⟩) ∧
    (∀ t, get_translation s kid lc = some t →
      (upsert_translation_endpoint s kid lc td).2 = .ok () ∧
      get_translation (upsert_translation_endpoint s kid lc td).1 kid lc =
        some { t with
                value := td.value
                updated_by := td.updated_by
                updated_at := s.time }) := by
  refine ⟨?_, ?_, ?_⟩
  · intro t ht
    simp only [create_translation_endpoint, hk, ht]
  · intro ht
    simp only [create_translation_endpoint, hk, ht, upsert_translation]
    exact ⟨trivial, get_translation_upsertRow_miss s kid lc td.value td.updated_by ht⟩
  · intro t ht
    simp only [upsert_translation_endpoint, hk, upsert_translation]
    exact ⟨trivial, get_translation_upsertRow_hit s kid lc td.value td.updated_by t ht⟩

/-- Witness for C9. -/
theorem c9_post_translation_create_witness :
    create_translation_endpoint wstore 0 "en" ⟨"en", "New", "u2"⟩ =
      (wstore, .error ⟨400, "Translation already exists for this language"⟩) :=
  (c9_post_translation_create wstore 0 "en" ⟨"en", "New", "u2"⟩
    ⟨0, "a", "ui", none⟩ (by decide)).1 ⟨1, 0, "en", "Hi", "u", 0⟩ (by decide)

/-! ## CSV import lemmas (C1-C4) -/

theorem processRow_invalid (ub : String) (acc : ImportAcc) (n : Nat) (r : CSVRow)
    (h : rowInvalid r = true) :
    processRow ub acc n r = .error ⟨400, requiredFieldsDetail n⟩ := by
  simp [processRow, h]

theorem processRow_valid_ok (ub : String) (acc : ImportAcc) (n : Nat) (r : CSVRow)
    (h : rowInvalid r = false) :
    ∃ acc1, processRow ub acc n r = .ok acc1 := by
  cases hres : processRow ub acc n r with
  | ok a => exact ⟨a, rfl⟩
  | error e =>
    exfalso
    simp only [processRow, h, Bool.false_eq_true, if_false] at hres
    split at hres
    · exact absurd hres (by simp)
    · split at hres
      · exact absurd hres (by simp)
      · exact absurd hres (by simp)

theorem update_translation_key_translations (s : Store) (kid : Nat)
    (u : TranslationKeyUpdate) :
    (update_translation_key s kid u).1.translations = s.translations := by
  unfold update_translation_key
  split <;> rfl

theorem processRow_ok_translations (ub : String) (acc : ImportAcc) (n : Nat)
    (r : CSVRow) (acc1 : ImportAcc) (h : processRow ub acc n r = .ok acc1) :
    acc1.store.translations = acc.store.translations := by
  simp only [processRow] at h
  split at h
  · exact absurd h (by simp)
  · split at h
    · simp only [Except.ok.injEq] at h
      subst h
      rfl
    · split at h
      · simp only [Except.ok.injEq] at h
        subst h
        exact update_translation_key_translations acc.store _ _
      · simp only [Except.ok.injEq] at h
        subst h
        rfl

theorem importRows_translations (ub : String) :
    ∀ (rows : List CSVRow) (acc : ImportAcc) (n : Nat),
      (importRows ub acc n rows).1.store.translations = acc.store.translations := by
  intro rows
  induction rows with
  | nil => intro acc n; rfl
  | cons r rs ih =>
    intro acc n
    simp only [importRows]
    cases hp : processRow ub acc n r with
    | error e => rfl
    | ok acc1 =>
      rw [ih acc1 (n + 1)]
      exact processRow_ok_translations ub acc n r acc1 hp

theorem cellUpdates_length (kid : Nat) (ub : String) (r : CSVRow) :
    (cellUpdates kid ub r).length = cellCount r := by
  by_cases h1 : pyStrip (r.en.getD "") = "" <;>
  by_cases h2 : pyStrip (r.es.getD "") = "" <;>
  by_cases h3 : pyStrip (r.pt.getD "") = "" <;>
    simp [cellUpdates, cellCount, List.filterMap_cons, beq_iff_eq, h1, h2, h3]

theorem processRow_ok_staged (ub : String) (acc : ImportAcc) (n : Nat)
    (r : CSVRow) (acc1 : ImportAcc) (h : processRow ub acc n r = .ok acc1) :
    acc1.staged.length = acc.staged.length + cellCount r := by
  simp only [processRow] at h
  split at h
  · exact absurd h (by simp)
  · split at h
    · simp only [Except.ok.injEq] at h
      subst h
      simp [cellUpdates_length]
    · split at h <;>
        (simp only [Except.ok.injEq] at h; subst h; simp [cellUpdates_length])

theorem importRows_ok_staged (ub : String) :
    ∀ (rows : List CSVRow) (acc : ImportAcc) (n : Nat),
      (importRows ub acc n rows).2 = .ok () →
      (importRows ub acc n rows).1.staged.length =
        acc.staged.length + (rows.map cellCount).sum := by
  intro rows
  induction rows with
  | nil => intro acc n _; simp [importRows]
  | cons r rs ih =>
    intro acc n h
    cases hp : processRow ub acc n r with
    | error e =>
      simp only [importRows, hp] at h
      exact absurd h (by simp)
    | ok acc1 =>
      simp only [importRows, hp] at h ⊢
      simp only [List.map_cons, List.sum_cons]
      rw [ih acc1 (n + 1) h, processRow_ok_staged ub acc n r acc1 hp]
      omega

theorem importRows_abort (ub : String) (bad : CSVRow) (rest : List CSVRow)
    (hbad : rowInvalid bad = true) :
    ∀ (pre : List CSVRow) (acc : ImportAcc) (n : Nat),
      (∀ r ∈ pre, rowInvalid r = false) →
      importRows ub acc n (pre ++ bad :: rest) =
        ((importRows ub acc n pre).1,
         .error ⟨400, requiredFieldsDetail (n + pre.length)⟩) := by
  intro pre
  induction pre with
  | nil =>
    intro acc n _
    simp [importRows, processRow_invalid ub acc n bad hbad]
  | cons p pre1 ih =>
    intro acc n hpre
    have hp : rowInvalid p = false := hpre p (by simp)
    obtain ⟨acc1, hacc1⟩ := processRow_valid_ok ub acc n p hp
    have hstep : importRows ub acc n ((p :: pre1) ++ bad :: rest) =
        importRows ub acc1 (n + 1) (pre1 ++ bad :: rest) := by
      simp only [List.cons_append, importRows, hacc1]
      rfl
    have hstep2 : importRows ub acc n (p :: pre1) =
        importRows ub acc1 (n + 1) pre1 := by
      simp only [importRows, hacc1]
    rw [hstep, ih acc1 (n + 1) (fun r hr => hpre r (by simp [hr])), hstep2]
    have harith : n + 1 + pre1.length = n + (pre1.length + 1) := by omega
    simp [harith]

theorem find?_id_of_nodup :
    ∀ (keys : List TranslationKeyRec) (ek : TranslationKeyRec),
      (keys.map (fun k => k.id)).Nodup → ek ∈ keys →
      keys.find? (fun x => x.id == ek.id) = some ek := by
  intro keys
  induction keys with
  | nil => intro ek _ hm; cases hm
  | cons a t ih =>
    intro ek hnd hm
    simp only [List.map_cons, List.nodup_cons] at hnd
    rcases List.mem_cons.1 hm with rfl | hm2
    · simp [List.find?]
    · have hne : (a.id == ek.id) = false := by
        simp only [beq_eq_false_iff_ne, ne_eq]
        intro he
        exact hnd.1 (he ▸ List.mem_map_of_mem (fun k => k.id) hm2)
      simp only [List.find?, hne]
      exact ih ek hnd.2 hm2

theorem applyUpdate_id (t : TranslationKeyRec) (u : TranslationKeyUpdate) :
    (applyUpdate t u).id = t.id := rfl

theorem find?_id_map_update (keys : List TranslationKeyRec)
    (ek : TranslationKeyRec) (u : TranslationKeyUpdate)
    (hnd : (keys.map (fun k => k.id)).Nodup) (hm : ek ∈ keys) :
    (keys.map (fun x => if x.id == ek.id then applyUpdate x u else x)).find?
      (fun x => x.id == ek.id) = some (applyUpdate ek u) := by
  rw [find?_map_pres (fun x => if x.id == ek.id then applyUpdate x u else x)
    (fun x => x.id == ek.id)
    (fun x => by by_cases h : (x.id == ek.id) = true <;> simp [h, applyUpdate_id])]
  rw [find?_id_of_nodup keys ek hnd hm]
  simp

/-! ## C1 -/

/-- Row and store exhibiting the C1 divergence: the stored key has a
description while the CSV row's description cell is blank. -/
def rowB : CSVRow := ⟨some "a", some "ui", some "", none, none, none⟩

def ekB : TranslationKeyRec := ⟨0, "a", "ui", some "old"⟩

def accB : ImportAcc := ⟨store0, 0, 0, []⟩

/-- C1 as amended: when the trimmed key of a valid CSV row names an
existing TranslationKey and the row's category or normalized description
differs from the stored record, the row issues an update and increments
`updated_keys`; afterwards the stored category equals the row's trimmed
category and the stored description equals the row's normalized
description when that is non-null but KEEPS its old value when the row's
description is blank (the partial update drops null fields); the key is
unchanged.  When neither field differs, the store and both counters are
left unchanged. -/
theorem c1_csv_existing_key_update (ub : String) (acc : ImportAcc) (n : Nat)
    (r : CSVRow) (ek : TranslationKeyRec)
    (hv : rowInvalid r = false)
    (hnd : (acc.store.keys.map (fun k => k.id)).Nodup)
    (hek : get_translation_key_by_key acc.store (pyStrip (r.key.getD "")) = some ek) :
    ((ek.category != pyStrip (r.category.getD "") ||
        ek.description != normDesc r) = true →
      ∃ acc1, processRow ub acc n r = .ok acc1 ∧
        acc1.created_keys = acc.created_keys ∧
        acc1.updated_keys = acc.updated_keys + 1 ∧
        get_translation_keyById acc1.store ek.id =
          some ⟨ek.id, ek.key, pyStrip (r.category.getD ""),
                (normDesc r).or ek.description⟩) ∧
    ((ek.category != pyStrip (r.category.getD "") ||
        ek.description != normDesc r) = false →
      processRow ub acc n r =
        .ok ⟨acc.store, acc.created_keys, acc.updated_keys,
             acc.staged ++ cellUpdates ek.id ub r⟩) := by
  have hmem : ek ∈ acc.store.keys := List.mem_of_find?_eq_some hek
  constructor
  · intro hc
    refine ⟨⟨(update_translation_key acc.store ek.id
        ⟨none, some (pyStrip (r.category.getD "")), normDesc r⟩).1,
        acc.created_keys, acc.updated_keys + 1,
        acc.staged ++ cellUpdates ek.id ub r⟩, ?_, rfl, rfl, ?_⟩
    · simp only [processRow, hv, Bool.false_eq_true, if_false, hek, hc, if_true]
    · unfold update_translation_key
      rw [find?_id_of_nodup acc.store.keys ek hnd hmem]
      unfold get_translation_keyById
      simp only
      rw [find?_id_map_update acc.store.keys ek _ hnd hmem]
      simp [applyUpdate]
  · intro hc
    simp only [processRow, hv, Bool.false_eq_true, if_false, hek, hc]

/-- Witness for C1 (amended): the concrete store and row of the
counterexample, run through the theorem. -/
theorem c1_csv_existing_key_update_witness :
    ∃ acc1, processRow "u" accB 2 rowB = .ok acc1 ∧
      acc1.created_keys = accB.created_keys ∧
      acc1.updated_keys = accB.updated_keys + 1 ∧
      get_translation_keyById acc1.store ekB.id =
        some ⟨ekB.id, ekB.key, pyStrip (rowB.category.getD ""),
              (normDesc rowB).or ekB.description⟩ :=
  (c1_csv_existing_key_update "u" accB 2 rowB ekB (by decide) (by decide)
    (by decide)).1 (by decide)

/-- Counterexample to C1 as stated: the row's normalized description
(null, from a blank cell) differs from the stored `some "old"`, so an
update is issued (`updated_keys = 1`), yet afterwards the stored
description is still `some "old"`, not the row's normalized value. -/
theorem c1_counterexample :
    normDesc rowB = none ∧
    ekB.description ≠ normDesc rowB ∧
    (bulk_import_from_csv store0 [rowB] "u").2 = .ok ⟨0, 1, 0, 1⟩ ∧
    get_translation_keyById (bulk_import_from_csv store0 [rowB] "u").1 0 =
      some ⟨0, "a", "ui", some "old"⟩ := by decide

/-! ## C2 -/

/-- A row whose key cell is whitespace-only: blank after trimming, but
truthy for the pre-trim check of main.py line 158. -/
def rowW : CSVRow := ⟨some " ", some "ui", none, some "Hello", none, none⟩

/-- A row with no category cell (used as the failing row for C2/C4). -/
def rowNoCat : CSVRow := ⟨some "x.y", none, none, some "Hi", none, none⟩

def csvRow1 : CSVRow := ⟨some "foo.bar", some "ui", none, some "Hello", none, none⟩

/-- C2 as amended: a data row whose key or category field is missing or
the empty string (Python truthiness, checked BEFORE trimming) aborts the
whole import with a 400 error naming that row's 1-indexed row number
(row 2 = first data row), and no TranslationKey is created from that row:
the resulting store is exactly the store after the preceding rows.
(Whitespace-only cells pass the check; see the counterexample.) -/
theorem c2_abort_on_missing_or_empty_field (s : Store) (ub : String)
    (pre rest : List CSVRow) (bad : CSVRow)
    (hpre : ∀ r ∈ pre, rowInvalid r = false)
    (hbad : rowInvalid bad = true) :
    (bulk_import_from_csv s (pre ++ bad :: rest) ub).2 =
      .error ⟨400, requiredFieldsDetail (2 + pre.length)⟩ ∧
    (bulk_import_from_csv s (pre ++ bad :: rest) ub).1 =
      (importRows ub ⟨s, 0, 0, []⟩ 2 pre).1.store := by
  have habort := importRows_abort ub bad rest hbad pre ⟨s, 0, 0, []⟩ 2 hpre
  simp only [bulk_import_from_csv, habort]
  exact ⟨trivial, trivial⟩

/-- Witness for C2 (amended), with one valid row before the bad row. -/
theorem c2_abort_on_missing_or_empty_field_witness :
    (bulk_import_from_csv emptyStore [csvRow1, rowNoCat] "u").2 =
      .error ⟨400, requiredFieldsDetail (2 + [csvRow1].length)⟩ ∧
    (bulk_import_from_csv emptyStore [csvRow1, rowNoCat] "u").1 =
      (importRows "u" ⟨emptyStore, 0, 0, []⟩ 2 [csvRow1]).1.store :=
  c2_abort_on_missing_or_empty_field emptyStore "u" [csvRow1] [] rowNoCat
    (by decide) (by decide)

/-- Counterexample to C2 as stated: a whitespace-only key cell is blank
after trimming, yet the import is NOT aborted and a TranslationKey (with
empty key string) IS created from that row, because main.py line 158
checks truthiness before stripping. -/
theorem c2_counterexample :
    pyStrip " " = "" ∧
    (bulk_import_from_csv emptyStore [rowW] "u").2 = .ok ⟨1, 0, 1, 1⟩ ∧
    get_translation_key_by_key (bulk_import_from_csv emptyStore [rowW] "u").1 "" =
      some ⟨0, "", "ui", none⟩ := by decide

/-! ## C3 -/

/-- C3: every successful import reports
`total_rows_processed = created_keys + updated_keys` and
`translations_updated` equal to the number of staged non-blank language
cells; concretely, importing `foo.bar,ui,Hello` on an empty store gives
`created_keys = 1, translations_updated = 1`, and re-importing the same
row gives `created_keys = 0, updated_keys = 0, translations_updated = 1`. -/
theorem c3_import_counts (s : Store) (rows : List CSVRow) (ub : String)
    (res : ImportResult)
    (h : (bulk_import_from_csv s rows ub).2 = .ok res) :
    res.total_rows_processed = res.created_keys + res.updated_keys ∧
    res.translations_updated = (rows.map cellCount).sum ∧
    (bulk_import_from_csv emptyStore [csvRow1] "bulk_import").2 =
      .ok ⟨1, 0, 1, 1⟩ ∧
    (bulk_import_from_csv
        (bulk_import_from_csv emptyStore [csvRow1] "bulk_import").1
        [csvRow1] "bulk_import").2 = .ok ⟨0, 0, 1, 0⟩ := by
  refine ⟨?_, ?_, by decide, by decide⟩ <;>
  · cases hp : (importRows ub ⟨s, 0, 0, []⟩ 2 rows).2 with
    | error e =>
      simp only [bulk_import_from_csv, hp] at h
      exact absurd h (by simp)
    | ok u =>
      simp only [bulk_import_from_csv, hp] at h
      simp only [Except.ok.injEq] at h
      subst h
      first
      | rfl
      | · have := importRows_ok_staged ub rows ⟨s, 0, 0, []⟩ 2 (by rw [hp])
          simpa using this

/-- Witness for C3 at the concrete one-row import. -/
theorem c3_import_counts_witness :
    (⟨1, 0, 1, 1⟩ : ImportResult).total_rows_processed =
      (⟨1, 0, 1, 1⟩ : ImportResult).created_keys +
        (⟨1, 0, 1, 1⟩ : ImportResult).updated_keys ∧
    (⟨1, 0, 1, 1⟩ : ImportResult).translations_updated =
      ([csvRow1].map cellCount).sum ∧
    (bulk_import_from_csv emptyStore [csvRow1] "bulk_import").2 =
      .ok ⟨1, 0, 1, 1⟩ ∧
    (bulk_import_from_csv
        (bulk_import_from_csv emptyStore [csvRow1] "bulk_import").1
        [csvRow1] "bulk_import").2 = .ok ⟨0, 0, 1, 0⟩ :=
  c3_import_counts emptyStore [csvRow1] "bulk_import" ⟨1, 0, 1, 1⟩ (by decide)

/-! ## C4 -/

/-- C4: when a row of the import fails, the import aborts with a
row-numbered error; the TranslationKeys created or updated for the rows
before the failing row remain committed (the resulting store is exactly
the prefix-processed store), while no translation upsert is issued at
all — the translations table is still the one the import started with. -/
theorem c4_abort_keeps_prefix_no_upsert (s : Store) (ub : String)
    (pre rest : List CSVRow) (bad : CSVRow)
    (hpre : ∀ r ∈ pre, rowInvalid r = false)
    (hbad : rowInvalid bad = true) :
    (bulk_import_from_csv s (pre ++ bad :: rest) ub).2 =
      .error ⟨400, requiredFieldsDetail (2 + pre.length)⟩ ∧
    (bulk_import_from_csv s (pre ++ bad :: rest) ub).1 =
      (importRows ub ⟨s, 0, 0, []⟩ 2 pre).1.store ∧
    (bulk_import_from_csv s (pre ++ bad :: rest) ub).1.translations =
      s.translations := by
  have habort := importRows_abort ub bad rest hbad pre ⟨s, 0, 0, []⟩ 2 hpre
  refine ⟨?_, ?_, ?_⟩
  · simp only [bulk_import_from_csv, habort]
  · simp only [bulk_import_from_csv, habort]
  · simp only [bulk_import_from_csv, habort]
    exact importRows_translations ub pre ⟨s, 0, 0, []⟩ 2

/-- Witness for C4: one valid row committed, then a row without a
category. -/
theorem c4_abort_keeps_prefix_no_upsert_witness :
    (bulk_import_from_csv emptyStore [csvRow1, rowNoCat] "u").2 =
      .error ⟨400, requiredFieldsDetail (2 + [csvRow1].length)⟩ ∧
    (bulk_import_from_csv emptyStore [csvRow1, rowNoCat] "u").1 =
      (importRows "u" ⟨emptyStore, 0, 0, []⟩ 2 [csvRow1]).1.store ∧
    (bulk_import_from_csv emptyStore [csvRow1, rowNoCat] "u").1.translations =
      emptyStore.translations :=
  c4_abort_keeps_prefix_no_upsert emptyStore "u" [csvRow1] [] rowNoCat
    (by decide) (by decide)

end Loc
